import Mathlib

/-!
Shallow embedding of `src/naive_tsne.cu` (naive GPU t-SNE) over exact
rational arithmetic.  Matrices are functions `Fin N → Fin N → ℚ` in the
source's column-major reading: entry `(r, c)` is the element stored at
`r + c*N`, and point `i`'s conditional distribution lives in column `i`
(the entropy loop reads `pij[j + TID*N]`).  The transcendental float
functions `exp`, `log`, `log2`, `pow2` are passed as abstract parameters
`fexp`, `flog`, `rlog2`, since none of the properties proved here depend
on their values.  External dense linear-algebra collaborators
(`squared_pairwise_dist`, `zero_diagonal`, `Reduce`, `Broadcast`,
cuBLAS `gemm`/`geam`) are embedded by their documented contracts.
-/

namespace NaiveTSNE

/-- Contract of `Distance::squared_pairwise_dist`: `d[i,j] = ‖x_i − x_j‖²`
for row-points `X : Fin N → Fin D → ℚ`. -/
def sq_pairwise_dist {N D : ℕ} (X : Fin N → Fin D → ℚ) : Fin N → Fin N → ℚ :=
  fun i j => ∑ k, (X i k - X j k) ^ 2

/-- Contract of `zero_diagonal`: set every diagonal entry of an `N×N` matrix to 0. -/
def zero_diagonal {N : ℕ} (M : Fin N → Fin N → ℚ) : Fin N → Fin N → ℚ :=
  fun i j => if i = j then 0 else M i j

/-- `func_kl` (lines 15-19): `x == 0 ? 0 : x*(log(x) - log(y))`, with the float
`log` abstracted as `flog`. -/
def func_kl (flog : ℚ → ℚ) (x y : ℚ) : ℚ :=
  if x = 0 then 0 else x * (flog x - flog y)

/-- The float value `x * log2(x)` as computed inside `func_entropy_kernel`
(line 26).  In IEEE single precision this product is NaN exactly when
`x ≤ 0` (`0 * log2 0 = 0·(−∞) = NaN`; `log2` of a negative is NaN); the
NaN outcome is modelled as `none`, and `rlog2` abstracts `log2` on
positive arguments. -/
def entropy_val (rlog2 : ℚ → ℚ) (x : ℚ) : Option ℚ :=
  if x ≤ 0 then none else some (x * rlog2 x)

/-- `func_entropy_kernel` (lines 25-27): `val = x*log2(x); (val != val) ? 0 : val`.
The self-inequality test is the NaN test, i.e. the `none` branch of
`entropy_val`. -/
def func_entropy_kernel (rlog2 : ℚ → ℚ) (x : ℚ) : ℚ :=
  match entropy_val rlog2 x with
  | none => 0
  | some v => v

/-- The `entropy_` matrix built by `thrust_search_perplexity` (lines 91-93):
elementwise `func_entropy_kernel` over `pij`, then `zero_diagonal`. -/
def entropy_matrix {N : ℕ} (rlog2 : ℚ → ℚ) (pij : Fin N → Fin N → ℚ) :
    Fin N → Fin N → ℚ :=
  zero_diagonal (fun i j => func_entropy_kernel rlog2 (pij i j))

/-- `neg_entropy` (line 99): `Reduce::reduce_alpha(handle, entropy_, N, N, -1.0f, 1)`,
the column sums of `entropy_` scaled by `−1` (point `i`'s distribution is
column `i`). -/
def neg_entropy {N : ℕ} (rlog2 : ℚ → ℚ) (pij : Fin N → Fin N → ℚ) : Fin N → ℚ :=
  fun c => -1 * ∑ r, entropy_matrix rlog2 pij r c

/-- Per-point state of the perplexity calibrator: current bandwidth and the
bisection bounds. -/
structure CalibPoint where
  sigma : ℚ
  lower : ℚ
  upper : ℚ
deriving DecidableEq, Repr

/-- Body of the `upper_lower_assign` kernel (lines 62-77) for one in-range
thread: `if (perplexity > target) upper = sigma; else lower = sigma;
sigma = (upper + lower)/2`. -/
def upper_lower_assign (perplexity target : ℚ) (p : CalibPoint) : CalibPoint :=
  let p1 := if target < perplexity then { p with upper := p.sigma }
            else { p with lower := p.sigma }
  { p1 with sigma := (p1.upper + p1.lower) / 2 }

/-- The bounds guard of `upper_lower_assign` (line 70): a thread proceeds
iff `TID > N` is false. -/
def guard_passes (TID N : ℕ) : Bool :=
  ! decide (N < TID)

/-- Indices a non-returning `upper_lower_assign` thread accesses in each of
the four length-`N` arrays `sigmas`, `lower_bound`, `upper_bound`,
`perplexity` (lines 72-76): just `TID`. -/
def upper_lower_accesses (TID : ℕ) : List ℕ :=
  [TID]

/-- Affinity construction, unnormalized stage (`compute_pij` lines 129-155):
squared pairwise distances, each column `c` divided by `−2σ_c²`
(`Broadcast` with scale `−2`), elementwise `fexp`, then `zero_diagonal`. -/
def pij_unnorm {N D : ℕ} (fexp : ℚ → ℚ) (X : Fin N → Fin D → ℚ)
    (sigma : Fin N → ℚ) : Fin N → Fin N → ℚ :=
  zero_diagonal (fun r c => fexp (sq_pairwise_dist X r c / (-2 * sigma c ^ 2)))

/-- Contract of `Reduce::reduce_sum(handle, M, N, N, 1)`: column sums. -/
def col_sums {N : ℕ} (M : Fin N → Fin N → ℚ) : Fin N → ℚ :=
  fun c => ∑ r, M r c

/-- The conditional-probability matrix of `compute_pij` just before
symmetrization (lines 161-167): each column divided by its own sum,
`p(r|c)` at entry `(r, c)`. -/
def cond_p {N D : ℕ} (fexp : ℚ → ℚ) (X : Fin N → Fin D → ℚ)
    (sigma : Fin N → ℚ) : Fin N → Fin N → ℚ :=
  fun r c => pij_unnorm fexp X sigma r c / col_sums (pij_unnorm fexp X sigma) c

/-- `NaiveTSNE::compute_pij` (lines 122-183): conditional probabilities
followed by the `cublasSgeam` symmetrization `0.5·P + 0.5·Pᵀ`. -/
def compute_pij {N D : ℕ} (fexp : ℚ → ℚ) (X : Fin N → Fin D → ℚ)
    (sigma : Fin N → ℚ) : Fin N → Fin N → ℚ :=
  fun r c => (cond_p fexp X sigma r c + cond_p fexp X sigma c r) / 2

/-- The Student-t kernel matrix built at lines 205-212 of
`compute_gradients`: squared pairwise embedding distances, elementwise
`1/(x+1)`, then `zero_diagonal`. -/
def student_kernel {N P : ℕ} (ys : Fin N → Fin P → ℚ) : Fin N → Fin N → ℚ :=
  zero_diagonal (fun i j => 1 / (sq_pairwise_dist ys i j + 1))

/-- The global normalizer `sum` of line 218: `thrust::reduce` over the whole
kernel matrix. -/
def t_sum {N P : ℕ} (ys : Fin N → Fin P → ℚ) : ℚ :=
  ∑ i, ∑ j, student_kernel ys i j

/-- The normalized low-dimensional affinities written into the `qij` buffer
at line 219: `dist / sum`. -/
def qij_norm {N P : ℕ} (ys : Fin N → Fin P → ℚ) : Fin N → Fin N → ℚ :=
  fun i j => student_kernel ys i j / t_sum ys

/-- The gradient coefficient matrix `C = (Pij − Qij) ⊙ dist` built in place
in the `qij` buffer at lines 240-246. -/
def grad_coeff {N P : ℕ} (ys : Fin N → Fin P → ℚ) (pij : Fin N → Fin N → ℚ) :
    Fin N → Fin N → ℚ :=
  fun i j => (pij i j - qij_norm ys i j) * student_kernel ys i j

/-- Row sums of an `N×N` matrix (what the first `gemm` against the all-ones
`N×P` matrix puts in every column of `forces`). -/
def row_sums {N : ℕ} (M : Fin N → Fin N → ℚ) : Fin N → ℚ :=
  fun i => ∑ j, M i j

/-- Result state of `NaiveTSNE::compute_gradients`: the three output buffers
passed by reference plus the returned loss. -/
structure GradState (N P : ℕ) where
  forces : Fin N → Fin P → ℚ
  dist : Fin N → Fin N → ℚ
  qij : Fin N → Fin N → ℚ
  loss : ℚ

/-- `NaiveTSNE::compute_gradients` (lines 194-275), one `let` per source
statement: kernel matrix into `dist`, global sum, normalized `qij`,
KL loss (elementwise `func_kl`, diagonal zeroed, summed), then the in-place
overwrites `qij ← pij − qij`, `qij ← qij ⊙ dist`, and the two `cublasSgemm`
calls `forces ← 1·qij·𝟙 + 0·forces`, `forces ← forces ⊙ ys`,
`forces ← 4η·qij·ys − 4η·forces`. -/
def compute_gradients {N P : ℕ} (flog : ℚ → ℚ) (ys : Fin N → Fin P → ℚ)
    (pij : Fin N → Fin N → ℚ) (eta : ℚ) : GradState N P :=
  let dist0 := sq_pairwise_dist ys
  let dist1 := zero_diagonal (fun i j => 1 / (dist0 i j + 1))
  let s := ∑ i, ∑ j, dist1 i j
  let qij1 : Fin N → Fin N → ℚ := fun i j => dist1 i j / s
  let lossM := zero_diagonal (fun i j => func_kl flog (pij i j) (qij1 i j))
  let loss := ∑ i, ∑ j, lossM i j
  let qij2 : Fin N → Fin N → ℚ := fun i j => pij i j - qij1 i j
  let qij3 : Fin N → Fin N → ℚ := fun i j => qij2 i j * dist1 i j
  let f1 : Fin N → Fin P → ℚ := fun i _ => ∑ j, qij3 i j * 1
  let f2 : Fin N → Fin P → ℚ := fun i k => f1 i k * ys i k
  let f3 : Fin N → Fin P → ℚ :=
    fun i k => 4 * eta * (∑ j, qij3 i j * ys j k) + -(4 * eta) * f2 i k
  ⟨f3, dist1, qij3, loss⟩

/-- The force formula exactly as the design document states it:
`forces = 4η · ( Y ⊙ (C·𝟙) − C·Y )` with `C = (Pij − Qij) ⊙ dist`. -/
def forces_spec_formula {N P : ℕ} (ys : Fin N → Fin P → ℚ)
    (pij : Fin N → Fin N → ℚ) (eta : ℚ) : Fin N → Fin P → ℚ :=
  fun i k =>
    4 * eta * (ys i k * row_sums (grad_coeff ys pij) i
      - ∑ j, grad_coeff ys pij i j * ys j k)

/-- Off-diagonal KL divergence as the design document states the loss:
`Σ_{i,j} pij·(log pij − log qij)`, a term being 0 when `pij = 0`, diagonal
excluded. -/
def kl_loss_spec {N : ℕ} (flog : ℚ → ℚ) (pij qij : Fin N → Fin N → ℚ) : ℚ :=
  ∑ i, ∑ j, if i = j then 0
    else if pij i j = 0 then 0
    else pij i j * (flog (pij i j) - flog (qij i j))

/-- Modelled from the spec: `Math::max_norm` is not under `src/`; the
interface list calls it "max-value normalization of a matrix" and the
preprocessing step "appl[ies] a max-norm rescaling to the input points",
i.e. every entry of the buffer is divided in place by the maximum
absolute entry.  `max_abs` is that maximum. -/
def max_abs (l : List ℚ) : ℚ :=
  l.foldr (fun x m => max |x| m) 0

/-- Modelled from the spec: the in-place effect of `Math::max_norm` on the
caller's buffer (see `max_abs`). -/
def max_norm (l : List ℚ) : List ℚ :=
  l.map (fun x => x / max_abs l)

/-- The value held by the caller's `points` buffer after `NaiveTSNE::tsne`
returns: line 283 (`Math::max_norm(points)`) is the only write to
`points` in `tsne` and everything below it only reads the buffer. -/
def tsne_points_after (l : List ℚ) : List ℚ :=
  max_norm l

/-- Mutable state of the optimization loop in `NaiveTSNE::tsne`
(lines 326-339): embedding, previous embedding, momentum buffer, and the
loss returned by the last gradient computation. -/
structure LoopState (N P : ℕ) where
  ys : Fin N → Fin P → ℚ
  yt1 : Fin N → Fin P → ℚ
  momentum : Fin N → Fin P → ℚ
  loss : ℚ

/-- One iteration of the loop body (lines 365-375), with the hard-coded
`eta = 1.0` and `momentum_weight = 0.8`: gradients, momentum from the old
`ys` and `yt_1`, snapshot `yt_1 ← ys`, then `ys ← ys + forces + momentum`. -/
def tsne_step {N P : ℕ} (flog : ℚ → ℚ) (pij : Fin N → Fin N → ℚ)
    (s : LoopState N P) : LoopState N P :=
  let g := compute_gradients flog s.ys pij 1
  let mom : Fin N → Fin P → ℚ := fun i k => (s.ys i k - s.yt1 i k) * (4 / 5)
  let ys1 : Fin N → Fin P → ℚ := fun i k => s.ys i k + g.forces i k
  let ys2 : Fin N → Fin P → ℚ := fun i k => ys1 i k + mom i k
  ⟨ys2, s.ys, mom, g.loss⟩

/-- The counted `for (int i = 0; i < 5000; i++)` loop of `tsne`
(lines 365-392): `n` remaining iterations, no other exit. -/
def tsne_loop_iters {N P : ℕ} (flog : ℚ → ℚ) (pij : Fin N → Fin N → ℚ) :
    ℕ → LoopState N P → LoopState N P
  | 0, s => s
  | n + 1, s => tsne_loop_iters flog pij n (tsne_step flog pij s)

/-- The optimization phase of `NaiveTSNE::tsne`: the loop run with its
hard-coded bound of 5000 iterations. -/
def tsne_optimize {N P : ℕ} (flog : ℚ → ℚ) (pij : Fin N → Fin N → ℚ)
    (s : LoopState N P) : LoopState N P :=
  tsne_loop_iters flog pij 5000 s

/-- Concrete two-point embedding in one output dimension, `y₀ = 0`, `y₁ = 1`. -/
def ysC : Fin 2 → Fin 1 → ℚ :=
  fun i _ => if i = 0 then 0 else 1

/-- Concrete 2×2 affinity matrix with off-diagonal entries 1. -/
def pijC : Fin 2 → Fin 2 → ℚ :=
  fun i j => if i = j then 0 else 1

/-- C10: after `compute_gradients` returns, the `dist` buffer holds the
Student-t kernel values `1/(1+d²)` with zero diagonal (not squared
distances), and the `qij` buffer has been overwritten in place with the
gradient coefficient matrix `(Pij − Qij) ⊙ dist` rather than the
normalized Student-t affinities. -/
theorem compute_gradients_buffers {N P : ℕ} (flog : ℚ → ℚ)
    (ys : Fin N → Fin P → ℚ) (pij : Fin N → Fin N → ℚ) (eta : ℚ) :
    (compute_gradients flog ys pij eta).dist
        = zero_diagonal (fun i j => 1 / (sq_pairwise_dist ys i j + 1))
      ∧ (compute_gradients flog ys pij eta).qij
        = fun i j => (pij i j - qij_norm ys i j) * student_kernel ys i j :=
  ⟨rfl, rfl⟩

/-- C6: the scalar loss returned by `compute_gradients` is the sum over all
off-diagonal entries of `pij·(log pij − log qij)` against the normalized
Student-t affinities, a term being exactly 0 whenever `pij = 0` and the
diagonal excluded. -/
theorem compute_gradients_loss_spec {N P : ℕ} (flog : ℚ → ℚ)
    (ys : Fin N → Fin P → ℚ) (pij : Fin N → Fin N → ℚ) (eta : ℚ) :
    (compute_gradients flog ys pij eta).loss
      = kl_loss_spec flog pij (qij_norm ys) :=
  rfl

/-- The counted loop of `tsne` unwinds to iterating the step function. -/
theorem tsne_loop_iters_eq_iterate {N P : ℕ} (flog : ℚ → ℚ)
    (pij : Fin N → Fin N → ℚ) :
    ∀ (n : ℕ) (s : LoopState N P),
      tsne_loop_iters flog pij n s = (tsne_step flog pij)^[n] s := by
  intro n
  induction n with
  | zero => intro s; rfl
  | succ n ih =>
      intro s
      show tsne_loop_iters flog pij n (tsne_step flog pij s) = _
      rw [ih, Function.iterate_succ_apply]

/-- C8: the optimization loop performs exactly 5000 gradient-and-update
steps on every input state; the result is the 5000-fold iterate of the
step function, whatever losses the steps report, so no loss- or
convergence-based test ever shortens the loop. -/
theorem tsne_optimize_runs_5000 {N P : ℕ} (flog : ℚ → ℚ)
    (pij : Fin N → Fin N → ℚ) (s : LoopState N P) :
    tsne_optimize flog pij s = (tsne_step flog pij)^[5000] s :=
  tsne_loop_iters_eq_iterate flog pij 5000 s

/-- C9: the bounds guard `if (TID > N) return` of `upper_lower_assign` is
off by one: the thread with `TID = N` (launched whenever `N` is not a
multiple of the 32-thread block size, e.g. `N = 1`) passes the guard yet
its accesses to the four length-`N` arrays are not all in range. -/
theorem upper_lower_assign_guard_oob :
    guard_passes 1 1 = true ∧ ¬ (∀ a ∈ upper_lower_accesses 1, a < 1) := by
  decide

/-- C3, counterexample: with `perplexity = target = 16` and
`(σ, lower, upper) = (1, 0, 2)`, the claim sets the upper bound to
`σ = 1`, but the kernel takes the else-branch at equality and leaves the
upper bound at 2. -/
theorem upper_lower_assign_equality_counterexample :
    (upper_lower_assign 16 16 ⟨1, 0, 2⟩).upper ≠ 1 := by
  norm_num [upper_lower_assign]

/-- C3 (amended): in one calibration step, if `perplexity > target` the
upper bound is set to the current `σ`, otherwise (`perplexity ≤ target`,
including equality) the lower bound is set to the current `σ`; in either
case `σ` is then set to `(upper + lower) / 2` of the updated bounds. -/
theorem upper_lower_assign_cases (perp target : ℚ) (p : CalibPoint) :
    (target < perp →
      upper_lower_assign perp target p
        = ⟨(p.sigma + p.lower) / 2, p.lower, p.sigma⟩)
    ∧ (perp ≤ target →
      upper_lower_assign perp target p
        = ⟨(p.upper + p.sigma) / 2, p.sigma, p.upper⟩) := by
  constructor
  · intro h
    simp [upper_lower_assign, if_pos h]
  · intro h
    simp [upper_lower_assign, if_neg (not_lt.mpr h)]

/-- C3, witness: the amended step evaluated at the equality input
`perplexity = target = 16`, `(σ, lower, upper) = (1, 0, 2)`. -/
theorem upper_lower_assign_cases_witness :
    upper_lower_assign 16 16 ⟨1, 0, 2⟩ = ⟨(2 + 1) / 2, 1, 2⟩ :=
  (upper_lower_assign_cases 16 16 ⟨1, 0, 2⟩).2 (le_refl 16)

/-- C2, counterexample: `tsne` rescales the caller's points buffer in
place via `Math::max_norm`, so the buffer `[2, 0]` does not hold its
original values after the call (it holds `[1, 0]`). -/
theorem tsne_points_counterexample :
    tsne_points_after [2, 0] ≠ [2, 0] := by
  norm_num [tsne_points_after, max_norm, max_abs]

/-- C2 (amended): after `tsne` returns, the caller's points buffer holds
the max-norm rescaling of the input (each entry divided by the maximum
absolute entry); it holds exactly the entry values it held on entry when
that maximum is 1, i.e. when the input is already max-normalized. -/
theorem tsne_points_after_normalized (l : List ℚ) (h : max_abs l = 1) :
    tsne_points_after l = l := by
  simp [tsne_points_after, max_norm, h]

/-- C2, witness: the already-normalized buffer `[1]` is preserved. -/
theorem tsne_points_after_normalized_witness :
    tsne_points_after [1] = [1] :=
  tsne_points_after_normalized [1] (by norm_num [max_abs])

/-- Squared pairwise distances are symmetric. -/
theorem sq_pairwise_dist_symm {N D : ℕ} (X : Fin N → Fin D → ℚ) (i j : Fin N) :
    sq_pairwise_dist X i j = sq_pairwise_dist X j i :=
  Finset.sum_congr rfl (fun k _ => by ring)

/-- The Student-t kernel matrix is symmetric. -/
theorem student_kernel_symm {N P : ℕ} (ys : Fin N → Fin P → ℚ) (i j : Fin N) :
    student_kernel ys i j = student_kernel ys j i := by
  rcases eq_or_ne i j with h | h
  · rw [h]
  · simp only [student_kernel, zero_diagonal, if_neg h]
    rw [if_neg (fun hji : j = i => h hji.symm), sq_pairwise_dist_symm ys i j]

/-- C4: the affinity matrix returned by `compute_pij` and the normalized
Student-t affinities built by the gradient step are both symmetric and
have every diagonal entry exactly 0, for all inputs. -/
theorem pij_qij_symm_zero_diag {N D P : ℕ} (fexp : ℚ → ℚ)
    (X : Fin N → Fin D → ℚ) (sigma : Fin N → ℚ) (ys : Fin N → Fin P → ℚ) :
    (∀ i j, compute_pij fexp X sigma i j = compute_pij fexp X sigma j i)
    ∧ (∀ i, compute_pij fexp X sigma i i = 0)
    ∧ (∀ i j, qij_norm ys i j = qij_norm ys j i)
    ∧ (∀ i, qij_norm ys i i = 0) := by
  refine ⟨fun i j => ?_, fun i => ?_, fun i j => ?_, fun i => ?_⟩
  · unfold compute_pij
    ring
  · unfold compute_pij cond_p pij_unnorm zero_diagonal
    simp
  · unfold qij_norm
    rw [student_kernel_symm]
  · unfold qij_norm student_kernel zero_diagonal
    simp

/-- C5: for every point set, strictly positive sigma vector and strictly
positive kernel function (as the real `exp` is), with at least two
points, each column of the conditional-probability matrix built by
`compute_pij` just before symmetrization sums exactly to 1: the
normalization divides each column by its own sum. -/
theorem cond_p_col_sums_one {N D : ℕ} (fexp : ℚ → ℚ) (X : Fin N → Fin D → ℚ)
    (sigma : Fin N → ℚ) (c : Fin N) (_hsig : ∀ i, 0 < sigma i)
    (hpos : ∀ x, 0 < fexp x) (hN : 2 ≤ N) :
    ∑ r, cond_p fexp X sigma r c = 1 := by
  have hS : 0 < col_sums (pij_unnorm fexp X sigma) c := by
    haveI : Nontrivial (Fin N) := Fin.nontrivial_iff_two_le.mpr hN
    obtain ⟨r, hr⟩ := exists_ne c
    refine Finset.sum_pos' (fun a _ => ?_) ⟨r, Finset.mem_univ r, ?_⟩
    · unfold pij_unnorm zero_diagonal
      split
      · exact le_refl 0
      · exact (hpos _).le
    · unfold pij_unnorm zero_diagonal
      rw [if_neg hr]
      exact hpos _
  unfold cond_p
  rw [← Finset.sum_div]
  have hcol : ∑ r, pij_unnorm fexp X sigma r c
      = col_sums (pij_unnorm fexp X sigma) c := rfl
  rw [hcol, div_self hS.ne']

/-- C5, witness: two coincident points in one input dimension, unit
sigmas, constant positive kernel; column 0 sums to 1. -/
theorem cond_p_col_sums_one_witness :
    ∑ r, cond_p (fun _ => (1 : ℚ)) (fun (_ : Fin 2) (_ : Fin 1) => (0 : ℚ))
      (fun _ => 1) r 0 = 1 :=
  cond_p_col_sums_one (fun _ => (1 : ℚ)) (fun _ _ => (0 : ℚ))
    (fun _ => (1 : ℚ)) (0 : Fin 2)
    (fun _ => one_pos) (fun _ => one_pos) (le_refl 2)

/-- C1, counterexample: at the two-point embedding `ysC`, affinities
`pijC` and `eta = 1`, the force matrix returned by `compute_gradients`
is `(1, −1)`, while the design formula `4η·(Y ⊙ (C·𝟙) − C·Y)` gives
`(−1, 1)`: the code returns its negation. -/
theorem compute_gradients_forces_counterexample :
    (compute_gradients (fun _ => 0) ysC pijC 1).forces
      ≠ forces_spec_formula ysC pijC 1 := by
  intro h
  have h00 := congrFun (congrFun h 0) 0
  norm_num [compute_gradients, forces_spec_formula, grad_coeff, qij_norm,
    t_sum, student_kernel, sq_pairwise_dist, zero_diagonal, row_sums,
    func_kl, Fin.sum_univ_succ, ysC, pijC] at h00

/-- C1 (amended): for every embedding `Y`, affinity matrix `Pij` and
learning rate `eta`, the force matrix returned by `compute_gradients`
equals `4η · (C·Y − Y ⊙ (C·𝟙))` — the negation of the documented
formula — where `C = (Pij − Qij) ⊙ dist` is the gradient coefficient
matrix; adding these forces to `Y` is then a descent step. -/
theorem compute_gradients_forces_formula {N P : ℕ} (flog : ℚ → ℚ)
    (ys : Fin N → Fin P → ℚ) (pij : Fin N → Fin N → ℚ) (eta : ℚ) :
    (compute_gradients flog ys pij eta).forces
      = fun i k => 4 * eta * ((∑ j, grad_coeff ys pij i j * ys j k)
          - ys i k * row_sums (grad_coeff ys pij) i) := by
  funext i k
  show 4 * eta * (∑ j, grad_coeff ys pij i j * ys j k)
      + -(4 * eta) * ((∑ j, grad_coeff ys pij i j * 1) * ys i k) = _
  simp only [mul_one, row_sums]
  ring

/-- C7: every elementwise entropy term `x·log2 x` that evaluates to NaN
(`entropy_val … = none`, e.g. at `x = 0`) is replaced by exactly 0 in the
entropy matrix that `thrust_search_perplexity` sums, so no NaN is
propagated into the entropy sum. -/
theorem entropy_nan_guard {N : ℕ} (rlog2 : ℚ → ℚ) (pij : Fin N → Fin N → ℚ)
    (i j : Fin N) (h : entropy_val rlog2 (pij i j) = none) :
    entropy_matrix rlog2 pij i j = 0 := by
  unfold entropy_matrix zero_diagonal
  split
  · rfl
  · show func_entropy_kernel rlog2 (pij i j) = 0
    unfold func_entropy_kernel
    rw [h]

/-- C7, witness: a zero affinity entry (the `0·log2 0` case) contributes
exactly 0 to the entropy matrix. -/
theorem entropy_nan_guard_witness :
    entropy_matrix (fun _ => 3) (fun _ _ => (0 : ℚ)) (0 : Fin 2) 1 = 0 :=
  entropy_nan_guard (fun _ => 3) (fun _ _ => 0) 0 1 (by simp [entropy_val])

end NaiveTSNE
